import Mathlib

/-!
Shallow embedding of the standalone-script generator of `pipeline.py`
(`get_executor_details`, `remove_template_markers`,
`change_dsl_function_to_normal_function` and the detail-building loop of
`gen_standalone`), together with proofs of the specified properties.

Strings are modelled as `String` / `List Char`; Python's `re.sub` over the
three concrete placeholder patterns is modelled by explicit scanners;
Python's `str.replace` is modelled by `pyReplace`; `json.dumps` by
`jsonDumps`.  Brace characters are written `\x7b` / `\x7d` and the single
quote `\x27` throughout.
-/

/-- `dropPfx p l` returns `some r` with `l = p ++ r` when `p` is a prefix of
`l`, else `none` (the literal-prefix step of a regex match). -/
def dropPfx : List Char → List Char → Option (List Char)
  | [], cs => some cs
  | _ :: _, [] => none
  | p :: ps, c :: cs => if p = c then dropPfx ps cs else none

/-- Match one occurrence of the pattern `pre ([^\x27]+) suf` at the head of a
character list, as Python's `re` does for the two capturing placeholder
patterns: the literal prefix `pre`, then a nonempty greedy run of
non-single-quote characters (the capture), then the literal suffix `suf`.
Returns the capture and the remainder after the whole match. -/
def matchCap (pre suf : List Char) (l : List Char) : Option (List Char × List Char) :=
  match dropPfx pre l with
  | none => none
  | some r1 =>
    let key := r1.takeWhile (fun c => c ≠ '\x27')
    if key.isEmpty then none
    else
      match dropPfx suf (r1.drop key.length) with
      | none => none
      | some r2 => some (key, r2)

/-- Fuel-driven scanner for `re.sub` with a capturing pattern: scan left to
right; at each position either rewrite a match (emitting `mk capture`) and
continue after it, or copy one character.  `fuel ≥ length` makes the fuel
irrelevant; it only serves structural recursion. -/
def subCapF (pre suf : List Char) (mk : List Char → List Char) :
    Nat → List Char → List Char
  | _, [] => []
  | 0, l => l
  | fuel + 1, c :: cs =>
    match matchCap pre suf (c :: cs) with
    | some (key, rest) => mk key ++ subCapF pre suf mk fuel rest
    | none => c :: subCapF pre suf mk fuel cs

/-- `re.sub` of the capturing pattern `pre ([^\x27]+) suf` by `mk capture`. -/
def subCap (pre suf : List Char) (mk : List Char → List Char) (l : List Char) : List Char :=
  subCapF pre suf mk l.length l

/-- Fuel-driven body of Python's `str.replace` for a non-empty needle. -/
def pyReplaceF (old new : List Char) : Nat → List Char → List Char
  | _, [] => []
  | 0, l => l
  | fuel + 1, c :: cs =>
    match dropPfx old (c :: cs) with
    | some rest =>
      if old.isEmpty then c :: pyReplaceF old new fuel cs
      else new ++ pyReplaceF old new fuel rest
    | none => c :: pyReplaceF old new fuel cs

/-- Python `str.replace old new`: replace every non-overlapping occurrence of
`old` by `new`, scanning left to right (for the empty needle Python inserts
`new` before every character and at the end). -/
def pyReplace (old new : List Char) (l : List Char) : List Char :=
  if old.isEmpty then new ++ l.flatMap (fun c => c :: new)
  else pyReplaceF old new l.length l

/-- `str.replace` lifted to `String`. -/
def pyReplaceStr (old new s : String) : String :=
  String.mk (pyReplace old.toList new.toList s.toList)

/-- The Python values that flow through the driver's `executors` table:
either a call-string or a (string-valued) dict. -/
inductive PyVal where
  | str (s : String)
  | dict (entries : List (String × String))
deriving DecidableEq, Repr

/-- Lower-case hex digit, as used by `json.dumps` in `\uXXXX` escapes. -/
def hexDigitChar (n : Nat) : Char :=
  if n < 10 then Char.ofNat (48 + n) else Char.ofNat (87 + n)

/-- A `\uXXXX` escape for a code unit. -/
def uEscape (n : Nat) : List Char :=
  ['\\', 'u', hexDigitChar (n / 4096 % 16), hexDigitChar (n / 256 % 16),
   hexDigitChar (n / 16 % 16), hexDigitChar (n % 16)]

/-- How `json.dumps` (default `ensure_ascii=True`) renders one character of a
string. -/
def jsonEscChar (c : Char) : List Char :=
  if c = '"' then ['\\', '"']
  else if c = '\\' then ['\\', '\\']
  else if c = '\n' then ['\\', 'n']
  else if c = '\t' then ['\\', 't']
  else if c = '\r' then ['\\', 'r']
  else if c = '\x08' then ['\\', 'b']
  else if c = '\x0c' then ['\\', 'f']
  else if c.toNat < 32 then uEscape c.toNat
  else if c.toNat < 128 then [c]
  else if c.toNat < 65536 then uEscape c.toNat
  else uEscape (55296 + (c.toNat - 65536) / 1024) ++ uEscape (56320 + (c.toNat - 65536) % 1024)

/-- `json.dumps` of a string. -/
def jsonDumpsString (s : String) : String :=
  String.mk ('"' :: s.toList.flatMap jsonEscChar ++ ['"'])

/-- `json.dumps` of the `PyVal`s in play (dicts use the default `", "` and
`": "` separators). -/
def jsonDumps : PyVal → String
  | PyVal.str s => jsonDumpsString s
  | PyVal.dict entries =>
    "\x7b" ++ String.intercalate ", "
      (entries.map fun p => jsonDumpsString p.1 ++ ": " ++ jsonDumpsString p.2) ++ "\x7d"

/-- Literal prefix of the pattern `\x7b\x7b$.inputs.parameters['([^']+)']\x7d\x7d`. -/
def inputParamPat : List Char :=
  ['\x7b', '\x7b', '$', '.', 'i', 'n', 'p', 'u', 't', 's', '.',
   'p', 'a', 'r', 'a', 'm', 'e', 't', 'e', 'r', 's', '[', '\x27']

/-- Literal suffix of the input-parameter pattern. -/
def inputParamClose : List Char := ['\x27', ']', '\x7d', '\x7d']

/-- Literal prefix of the pattern `\x7b\x7b$.outputs.artifacts['([^']+)'].path\x7d\x7d`. -/
def outputArtifactPat : List Char :=
  ['\x7b', '\x7b', '$', '.', 'o', 'u', 't', 'p', 'u', 't', 's', '.',
   'a', 'r', 't', 'i', 'f', 'a', 'c', 't', 's', '[', '\x27']

/-- Literal suffix of the output-artifact pattern. -/
def outputArtifactClose : List Char :=
  ['\x27', ']', '.', 'p', 'a', 't', 'h', '\x7d', '\x7d']

/-- The literal whole-input marker `\x7b\x7b$\x7d\x7d`. -/
def wholeInputPat : List Char := ['\x7b', '\x7b', '$', '\x7d', '\x7d']

/-- The fixed replacement the source substitutes for every output-artifact
placeholder. -/
def taxonomySentinel : List Char := "\x7bTAXONOMY_PATH\x7d".toList

/-- `remove_template_markers` of `pipeline.py`: three `re.sub` passes, in
order, over every element: input-parameter placeholders become the named
hole `\x7b<executor_name>_<key>\x7d`; output-artifact placeholders become the
fixed sentinel `\x7bTAXONOMY_PATH\x7d`; the whole-input marker becomes
`json.dumps executor_input_param`. -/
def remove_template_markers (rendered_code : List String) (executor_name : String)
    (executor_input_param : PyVal) : List String :=
  let step1 := rendered_code.map fun element =>
    String.mk (subCap inputParamPat inputParamClose
      (fun key => '\x7b' :: (executor_name.toList ++ '_' :: (key ++ ['\x7d'])))
      element.toList)
  let step2 := step1.map fun element =>
    String.mk (subCap outputArtifactPat outputArtifactClose
      (fun _ => taxonomySentinel) element.toList)
  step2.map fun element =>
    String.mk (pyReplace wholeInputPat (jsonDumps executor_input_param).toList
      element.toList)

/-- A container object as it appears under an executor in the manifest: each
of the three required keys may be present or absent. -/
structure PyContainer where
  command : Option (List String)
  args : Option (List String)
  image : Option String
deriving DecidableEq, Repr

/-- An executor's value in an executor group; the `container` key may be
absent (Python reads it with `.get("container", \x7b\x7d)`). -/
structure ExecutorValue where
  container : Option PyContainer
deriving DecidableEq, Repr

/-- One executor group: an insertion-ordered mapping executor-name ↦ value. -/
abbrev ExecutorGroup := List (String × ExecutorValue)

/-- A `deploymentSpec` mapping: group-name ↦ executor group, insertion order. -/
abbrev DeploymentSpecMap := List (String × ExecutorGroup)

/-- One YAML document: the `deploymentSpec` key may be absent. -/
structure Document where
  deploymentSpec : Option DeploymentSpecMap
deriving DecidableEq, Repr

/-- The complete container spec the locator returns. -/
structure ContainerSpec where
  command : List String
  args : List String
  image : String
deriving DecidableEq, Repr

/-- The `ValueError`s `get_executor_details` can raise. -/
inductive LocateError where
  | noDeploymentSpec
  | incompleteContainerSpec (name : String)
deriving DecidableEq, Repr

/-- First executor value stored under `name` in one group (Python's
`for executor, executor_value in executors_value.items()` with the equality
test). -/
def findInGroup : ExecutorGroup → String → Option ExecutorValue
  | [], _ => none
  | (k, v) :: rest, name => if k = name then some v else findInGroup rest name

/-- First executor value stored under `name` across the groups of one
`deploymentSpec`, in group order. -/
def findExecInGroups : DeploymentSpecMap → String → Option ExecutorValue
  | [], _ => none
  | (_, g) :: rest, name =>
    match findInGroup g name with
    | some ev => some ev
    | none => findExecInGroups rest name

/-- Search one (truthy) `deploymentSpec` for `executor_name`: not found is the
recoverable `none`; found with any of `command`/`args`/`image` missing from
the container raises; otherwise the spec is returned verbatim. -/
def searchSpec (ds : DeploymentSpecMap) (executor_name : String) :
    Except LocateError (Option ContainerSpec) :=
  match findExecInGroups ds executor_name with
  | none => Except.ok none
  | some ev =>
    let container := ev.container.getD ⟨none, none, none⟩
    match container.command, container.args, container.image with
    | some cmd, some ags, some img => Except.ok (some ⟨cmd, ags, img⟩)
    | _, _, _ => Except.error (LocateError.incompleteContainerSpec executor_name)

/-- `get_executor_details` of `pipeline.py`: scan the documents in order,
skipping every document whose `deploymentSpec` is absent or empty (Python's
falsiness test `if not deployment_spec`); search only the first remaining
document; raise `noDeploymentSpec` when no document has a truthy
`deploymentSpec`. -/
def get_executor_details : List Document → String → Except LocateError (Option ContainerSpec)
  | [], _ => Except.error LocateError.noDeploymentSpec
  | doc :: rest, executor_name =>
    match doc.deploymentSpec with
    | none => get_executor_details rest executor_name
    | some ds =>
      if ds.isEmpty then get_executor_details rest executor_name
      else searchSpec ds executor_name

/-- The first truthy (present and non-empty) `deploymentSpec` among the
documents — the only one `get_executor_details` ever searches. -/
def findFirstSpec : List Document → Option DeploymentSpecMap
  | [] => none
  | doc :: rest =>
    match doc.deploymentSpec with
    | none => findFirstSpec rest
    | some ds => if ds.isEmpty then findFirstSpec rest else some ds

/-- The fixed replacement table of `change_dsl_function_to_normal_function`,
in the source's insertion order. -/
def replacements : List (String × String) :=
  [("dsl.Input[dsl.Dataset]", "str"),
   ("dsl.Input[dsl.Model]", "str"),
   ("dsl.Input[dsl.Artifact]", "str"),
   ("dsl.Output[dsl.Dataset]", "str"),
   ("dsl.Output[dsl.Model]", "str"),
   ("Output[Artifact]", "str"),
   ("Input[Dataset]", "str"),
   ("import kfp", ""),
   ("from kfp import dsl", ""),
   ("from kfp.dsl import *", "")]

/-- The five characters of the literal `.path`. -/
def dotPathPat : List Char := ['.', 'p', 'a', 't', 'h']

/-- Fuel-driven scanner for `re.sub` of `(?<!os)\.path` by the empty string:
`p2`/`p1` carry the two characters of the original text immediately before
the current position (the negative lookbehind inspects the input, not the
output). -/
def removeDotPathF (p2 p1 : Option Char) : Nat → List Char → List Char
  | _, [] => []
  | 0, l => l
  | fuel + 1, c :: cs =>
    match dropPfx dotPathPat (c :: cs) with
    | some rest =>
      if p2 = some 'o' ∧ p1 = some 's' then c :: removeDotPathF p1 (some c) fuel cs
      else removeDotPathF (some 't') (some 'h') fuel rest
    | none => c :: removeDotPathF p1 (some c) fuel cs

/-- `remove_path_not_os_path` of `pipeline.py`: delete every `.path` whose two
preceding characters are not `os`. -/
def remove_path_not_os_path (line : String) : String :=
  String.mk (removeDotPathF none none line.toList.length line.toList)

/-- Python's `str.strip` whitespace test (ASCII whitespace). -/
def pyIsSpace (c : Char) : Bool :=
  c == ' ' || c == '\t' || c == '\n' || c == '\r' || c == '\x0b' || c == '\x0c'

/-- Python's `str.strip()`: drop leading and trailing whitespace. -/
def pyStrip (s : String) : String :=
  String.mk (((s.toList.dropWhile pyIsSpace).reverse.dropWhile pyIsSpace).reverse)

/-- `change_dsl_function_to_normal_function` of `pipeline.py`: remove
non-`os` `.path` accessors in every line, apply the replacement table in
order over every line, then return the last line stripped; the empty list has
no last element (Python raises `IndexError` on `rendered_code[-1]`), hence
`none`. -/
def change_dsl_function_to_normal_function (rendered_code : List String) : Option String :=
  let rc := rendered_code.map remove_path_not_os_path
  let rc2 := replacements.foldl (fun acc p => acc.map (pyReplaceStr p.1 p.2)) rc
  rc2.getLast?.map pyStrip

/-- All replacement passes of `change_dsl_function_to_normal_function` on one
line, in table order. -/
def applyReplacements (s : String) : String :=
  replacements.foldl (fun t p => pyReplaceStr p.1 p.2 t) s

/-- `executor_name.replace("-", "_")` of the driver loop. -/
def camelize (s : String) : String := pyReplaceStr "-" "_" s

/-- A value bound to a template slot by the driver loop: an image or command
string, the arg list produced by `remove_template_markers` (git-clone only),
or the caller-supplied table value passed through unchanged. -/
inductive DetailVal where
  | s (v : String)
  | lst (v : List String)
  | py (v : PyVal)
deriving DecidableEq, Repr

/-- How the driver loop aborts: a `ValueError` from the locator is caught and
turned into `Exit 1`; the `IndexError` of
`change_dsl_function_to_normal_function []` is not a `ValueError` and
escapes. -/
inductive GenError where
  | locate (e : LocateError)
  | indexError
deriving DecidableEq, Repr

/-- One iteration of the detail-building loop of `gen_standalone` for
executor `name` with table value `param`: locate the executor; when found,
bind `<camel>_image`, `<camel>_command` (cleaned up) and `<camel>_args`,
where the args slot gets `remove_template_markers` of the located args only
for `exec-git-clone-op` and the raw table value otherwise. -/
def processExecutor (documents : List Document) (name : String) (param : PyVal) :
    Except GenError (Option (List (String × DetailVal))) :=
  let camel := camelize name
  match get_executor_details documents name with
  | Except.error e => Except.error (GenError.locate e)
  | Except.ok none => Except.ok none
  | Except.ok (some ed) =>
    match change_dsl_function_to_normal_function ed.command with
    | none => Except.error GenError.indexError
    | some cmd =>
      Except.ok (some
        [(camel ++ "_image", DetailVal.s ed.image),
         (camel ++ "_command", DetailVal.s cmd),
         (camel ++ "_args",
          if name = "exec-git-clone-op" then
            DetailVal.lst (remove_template_markers ed.args camel param)
          else DetailVal.py param)])

/-- The detail-building loop of `gen_standalone` over an executor table:
entries accumulate in iteration order; the first error aborts. -/
def gen_standalone_details (documents : List Document) :
    List (String × PyVal) → Except GenError (List (String × DetailVal))
  | [] => Except.ok []
  | (name, param) :: rest =>
    match processExecutor documents name param with
    | Except.error e => Except.error e
    | Except.ok seg =>
      match gen_standalone_details documents rest with
      | Except.error e => Except.error e
      | Except.ok tail => Except.ok (seg.getD [] ++ tail)

/-- The driver's `executors` table, verbatim from `gen_standalone`. -/
def executors : List (String × PyVal) :=
  [("exec-data-processing-op", PyVal.str "data_processing_op(max_seq_len=\x7bMAX_SEQ_LEN\x7d, max_batch_len=\x7bMAX_BATCH_LEN\x7d, sdg_path=\"\x7bDATA_PVC_SDG_PATH\x7d\", model_path=\"\x7bDATA_PVC_MODEL_PATH\x7d\", skills_path=\"\x7bPREPROCESSED_DATA_SKILLS_PATH\x7d\", knowledge_path=\"\x7bPREPROCESSED_DATA_KNOWLEDGE_PATH\x7d\")"),
   ("exec-sdg-op", PyVal.str "sdg_op(num_instructions_to_generate=\x7bnum_instructions_to_generate\x7d, pipeline=\"\x7bsdg_pipeline\x7d\", repo_branch=\"\x7bexec_git_clone_op_repo_branch\x7d\", repo_pr=\x7bexec_git_clone_op_repo_pr\x7d, taxonomy_path=\"\x7bTAXONOMY_DATA_PATH\x7d\", sdg_path=\"\x7bDATA_PVC_SDG_PATH\x7d\")"),
   ("exec-git-clone-op", PyVal.dict []),
   ("exec-huggingface-importer-op", PyVal.str "huggingface_importer_op(repo_name=\"\x7bREPO_GRANITE_7B_IMAGE\x7d\", model_path=\"\x7bDATA_PVC_MODEL_PATH\x7d\")"),
   ("exec-run-mt-bench-op", PyVal.str "run_mt_bench_op(best_score_file=\"\x7bMT_BENCH_SCORES_PATH\x7d\",output_path=\"\x7bMT_BENCH_OUTPUT_PATH\x7d\",models_folder=\"\x7bCANDIDATE_MODEL_PATH_PREFIX\x7d\",models_path_prefix=\"\x7bCANDIDATE_MODEL_PATH_PREFIX\x7d\", max_workers=\"\x7bMAX_WORKERS\x7d\", merge_system_user_message=\x7bMERGE_SYSTEM_USER_MESSAGE\x7d)"),
   ("exec-run-final-eval-op", PyVal.str "run_final_eval_op(mmlu_branch_output=\"\x7bMMLU_BRANCH_SCORES_PATH\x7d\", mt_bench_branch_output=\"\x7bMT_BENCH_BRANCH_SCORES_PATH\x7d\", candidate_model=\"\x7bCANDIDATE_MODEL_PATH\x7d\", taxonomy_path=\"\x7bTAXONOMY_PATH\x7d\", sdg_path=\"\x7bDATA_PVC_SDG_PATH\x7d\", base_branch=\"\", candidate_branch=\"\", device=None, base_model_dir=\"\x7bDATA_PVC_MODEL_PATH\x7d\", max_workers=\"\x7bMAX_WORKERS\x7d\", merge_system_user_message=\x7bMERGE_SYSTEM_USER_MESSAGE\x7d, model_dtype=\"\x7bMODEL_DTYPE\x7d\", few_shots=\x7bFEW_SHOTS\x7d, batch_size=\"\x7bBATCH_SIZE\x7d\")")]

/-- First binding for `key` in a details list (a Python dict with distinct
keys, read back by the template). -/
def lookupFirst : List (String × DetailVal) → String → Option DetailVal
  | [], _ => none
  | (k, v) :: rest, key => if k = key then some v else lookupFirst rest key

lemma dropPfx_append (p r : List Char) : dropPfx p (p ++ r) = some r := by
  induction p with
  | nil => rfl
  | cons a ps ih => simp [dropPfx, ih]

lemma dropPfx_eq_some (p : List Char) :
    ∀ l r, dropPfx p l = some r → l = p ++ r := by
  induction p with
  | nil => intro l r h; simpa [dropPfx, eq_comm] using h.symm
  | cons a ps ih =>
    intro l r h
    cases l with
    | nil => simp [dropPfx] at h
    | cons c cs =>
      by_cases hac : a = c
      · subst hac
        simp only [dropPfx, if_pos rfl] at h
        simpa using ih cs r h
      · simp [dropPfx, hac] at h

lemma matchCap_nil (pre suf : List Char) : matchCap pre suf [] = none := by
  cases pre with
  | nil => rfl
  | cons a ps => rfl

lemma subCapF_no_match (pre suf : List Char) (mk : List Char → List Char) :
    ∀ (l : List Char) (fuel : Nat),
      (∀ n : Nat, matchCap pre suf (l.drop n) = none) →
      subCapF pre suf mk fuel l = l := by
  intro l
  induction l with
  | nil => intro fuel _; cases fuel <;> rfl
  | cons c cs ih =>
    intro fuel h
    cases fuel with
    | zero => rfl
    | succ f =>
      have h0 : matchCap pre suf (c :: cs) = none := by simpa using h 0
      simp only [subCapF, h0]
      exact congrArg (c :: ·) (ih f (fun n => by simpa using h (n + 1)))

lemma subCap_no_match (pre suf : List Char) (mk : List Char → List Char)
    (l : List Char) (h : ∀ n : Nat, matchCap pre suf (l.drop n) = none) :
    subCap pre suf mk l = l :=
  subCapF_no_match pre suf mk l l.length h

lemma pyReplaceF_no_match (old new : List Char) :
    ∀ (l : List Char) (fuel : Nat),
      (∀ n : Nat, dropPfx old (l.drop n) = none) →
      pyReplaceF old new fuel l = l := by
  intro l
  induction l with
  | nil => intro fuel _; cases fuel <;> rfl
  | cons c cs ih =>
    intro fuel h
    cases fuel with
    | zero => rfl
    | succ f =>
      have h0 : dropPfx old (c :: cs) = none := by simpa using h 0
      simp only [pyReplaceF, h0]
      exact congrArg (c :: ·) (ih f (fun n => by simpa using h (n + 1)))

lemma pyReplace_no_match (old new : List Char) (l : List Char)
    (hne : old.isEmpty = false)
    (h : ∀ n : Nat, dropPfx old (l.drop n) = none) :
    pyReplace old new l = l := by
  simp only [pyReplace, hne, Bool.false_eq_true, if_false]
  exact pyReplaceF_no_match old new l l.length h

lemma takeWhile_append_of (p : Char → Bool) (a : List Char) (b : Char) (t : List Char)
    (ha : ∀ c ∈ a, p c = true) (hb : p b = false) :
    List.takeWhile p (a ++ b :: t) = a := by
  induction a with
  | nil => simp [List.takeWhile, hb]
  | cons x xs ih =>
    have hx : p x = true := ha x (by simp)
    simp only [List.cons_append, List.takeWhile, hx]
    exact congrArg (x :: ·) (ih fun c hc => ha c (by simp [hc]))

lemma foldl_map_replace (ps : List (String × String)) :
    ∀ xs : List String,
      ps.foldl (fun acc p => acc.map (pyReplaceStr p.1 p.2)) xs =
      xs.map (fun x => ps.foldl (fun t p => pyReplaceStr p.1 p.2 t) x) := by
  induction ps with
  | nil => intro xs; simp
  | cons p rest ih =>
    intro xs
    simp only [List.foldl, ih (xs.map (pyReplaceStr p.1 p.2)), List.map_map]
    rfl

lemma string_append_right_ne (s a b : String) (h : a ≠ b) : s ++ a ≠ s ++ b := by
  intro hab
  apply h
  have hd : (s ++ a).data = (s ++ b).data := congrArg String.data hab
  rw [String.data_append, String.data_append] at hd
  have hdb := List.append_cancel_left hd
  cases a
  cases b
  exact congrArg String.mk hdb

lemma get_executor_details_eq (documents : List Document) (name : String) :
    get_executor_details documents name =
      match findFirstSpec documents with
      | none => Except.error LocateError.noDeploymentSpec
      | some ds => searchSpec ds name := by
  induction documents with
  | nil => rfl
  | cons doc rest ih =>
    cases hds : doc.deploymentSpec with
    | none => simpa [get_executor_details, findFirstSpec, hds] using ih
    | some ds =>
      by_cases he : ds.isEmpty
      · simpa [get_executor_details, findFirstSpec, hds, he] using ih
      · simp [get_executor_details, findFirstSpec, hds, he]

/-- C1: when the first truthy `deploymentSpec` holds executor `E` with a
complete container spec, `get_executor_details` returns exactly that spec —
the image string, the command sequence and the args sequence stored under
`E`'s container, in their stored order; only that first document is ever
searched. -/
theorem c1_locate_returns_exact_spec (documents : List Document) (E : String)
    (ds : DeploymentSpecMap) (ev : ExecutorValue)
    (cmd ags : List String) (img : String)
    (h1 : findFirstSpec documents = some ds)
    (h2 : findExecInGroups ds E = some ev)
    (h3 : ev.container = some ⟨some cmd, some ags, some img⟩) :
    get_executor_details documents E = Except.ok (some ⟨cmd, ags, img⟩) := by
  rw [get_executor_details_eq, h1]
  simp [searchSpec, h2, h3]

/-- Witness for C1 at the spec's scenario manifest. -/
theorem c1_locate_returns_exact_spec_witness :
    get_executor_details
      [Document.mk (some [("group1",
        [("exec-foo", ExecutorValue.mk (some (PyContainer.mk
          (some ["/bin/sh", "-c"])
          (some ["\x7b\x7b$.inputs.parameters[\x27x\x27]\x7d\x7d"])
          (some "img:tag"))))])])]
      "exec-foo" =
      Except.ok (some (ContainerSpec.mk ["/bin/sh", "-c"]
        ["\x7b\x7b$.inputs.parameters[\x27x\x27]\x7d\x7d"] "img:tag")) :=
  c1_locate_returns_exact_spec _ "exec-foo"
    [("group1",
      [("exec-foo", ExecutorValue.mk (some (PyContainer.mk
        (some ["/bin/sh", "-c"])
        (some ["\x7b\x7b$.inputs.parameters[\x27x\x27]\x7d\x7d"])
        (some "img:tag"))))])]
    (ExecutorValue.mk (some (PyContainer.mk
      (some ["/bin/sh", "-c"])
      (some ["\x7b\x7b$.inputs.parameters[\x27x\x27]\x7d\x7d"])
      (some "img:tag"))))
    ["/bin/sh", "-c"] ["\x7b\x7b$.inputs.parameters[\x27x\x27]\x7d\x7d"] "img:tag"
    (by decide) (by decide) (by decide)

/-- C6: when no document contains a `deploymentSpec` key, locating any
executor name — the empty string included — fails with the
no-`deploymentSpec` error. -/
theorem c6_no_deployment_spec_error (documents : List Document) (E : String)
    (h : ∀ d ∈ documents, d.deploymentSpec = none) :
    get_executor_details documents E = Except.error LocateError.noDeploymentSpec := by
  induction documents with
  | nil => rfl
  | cons doc rest ih =>
    have hd : doc.deploymentSpec = none := h doc (by simp)
    simp only [get_executor_details, hd]
    exact ih fun d hdm => h d (by simp [hdm])

/-- Witness for C6: one document without the key, empty executor name. -/
theorem c6_no_deployment_spec_error_witness :
    get_executor_details [Document.mk none] "" =
      Except.error LocateError.noDeploymentSpec :=
  c6_no_deployment_spec_error _ "" (by decide)

/-- C7 (amended): when some document contains a non-empty `deploymentSpec`
and the name is absent from every executor group of the first such document,
the locator returns the recoverable not-found result `none` and raises
nothing. -/
theorem c7_absent_executor_recoverable (documents : List Document) (E : String)
    (ds : DeploymentSpecMap)
    (h1 : findFirstSpec documents = some ds)
    (h2 : findExecInGroups ds E = none) :
    get_executor_details documents E = Except.ok none := by
  rw [get_executor_details_eq, h1]
  simp [searchSpec, h2]

/-- Witness for the amended C7. -/
theorem c7_absent_executor_recoverable_witness :
    get_executor_details
      [Document.mk (some [("g", [("exec-other", ExecutorValue.mk none)])])]
      "exec-foo" = Except.ok none :=
  c7_absent_executor_recoverable _ "exec-foo"
    [("g", [("exec-other", ExecutorValue.mk none)])] (by decide) (by decide)

/-- C7 counterexample: a document whose `deploymentSpec` key is present but
maps to the empty mapping — so the executor name is absent from every group
— is skipped by the falsiness test, and the locator raises the fatal
no-`deploymentSpec` error instead of returning the recoverable `none`. -/
theorem c7_counterexample :
    (Document.mk (some [])).deploymentSpec.isSome = true ∧
    (∀ g ∈ ([] : DeploymentSpecMap), findInGroup g.2 "x" = none) ∧
    get_executor_details [Document.mk (some [])] "x" =
      Except.error LocateError.noDeploymentSpec ∧
    get_executor_details [Document.mk (some [])] "x" ≠ Except.ok none := by
  have hres : get_executor_details [Document.mk (some [])] "x" =
      Except.error LocateError.noDeploymentSpec := rfl
  exact ⟨rfl, by simp, hres, by rw [hres]; exact fun h => Except.noConfusion h⟩

/-- C8: when the located executor's container lacks any of `command`, `args`
or `image`, the locator fails with the incomplete-container-spec error. -/
theorem c8_incomplete_container_error (documents : List Document) (E : String)
    (ds : DeploymentSpecMap) (ev : ExecutorValue)
    (h1 : findFirstSpec documents = some ds)
    (h2 : findExecInGroups ds E = some ev)
    (h3 : (ev.container.getD ⟨none, none, none⟩).command = none ∨
          (ev.container.getD ⟨none, none, none⟩).args = none ∨
          (ev.container.getD ⟨none, none, none⟩).image = none) :
    get_executor_details documents E =
      Except.error (LocateError.incompleteContainerSpec E) := by
  have hg : get_executor_details documents E = searchSpec ds E := by
    rw [get_executor_details_eq, h1]
  rw [hg]
  unfold searchSpec
  rw [h2]
  rcases hco : ev.container.getD ⟨none, none, none⟩ with ⟨cc, ca, ci⟩
  rw [hco] at h3
  cases cc <;> cases ca <;> cases ci <;> simp_all

/-- Witness for C8 at the spec's scenario: `command` and `image` present,
`args` absent. -/
theorem c8_incomplete_container_error_witness :
    get_executor_details
      [Document.mk (some [("g", [("exec-bar", ExecutorValue.mk (some
        (PyContainer.mk (some ["cmd"]) none (some "img"))))])])]
      "exec-bar" =
      Except.error (LocateError.incompleteContainerSpec "exec-bar") :=
  c8_incomplete_container_error _ "exec-bar"
    [("g", [("exec-bar", ExecutorValue.mk (some
      (PyContainer.mk (some ["cmd"]) none (some "img"))))])]
    (ExecutorValue.mk (some (PyContainer.mk (some ["cmd"]) none (some "img"))))
    (by decide) (by decide) (by decide)

lemma string_mk_toList (s : String) : String.mk s.toList = s := rfl

/-- C2: on args `[input-param ref to a, whole-input marker]` with binding
bundle `\x7ba: "X"\x7d`, resolution rewrites index 0 to the named hole
`\x7bexec_a\x7d` (executor name and key; the literal value `X` is not
inlined) and index 1 to the JSON serialization of the full bundle, with no
cross-substitution between the two. -/
theorem c2_order_sensitive_resolution :
    remove_template_markers
      ["\x7b\x7b$.inputs.parameters[\x27a\x27]\x7d\x7d", "\x7b\x7b$\x7d\x7d"]
      "exec" (PyVal.dict [("a", "X")]) =
      ["\x7bexec_a\x7d", jsonDumps (PyVal.dict [("a", "X")])] ∧
    jsonDumps (PyVal.dict [("a", "X")]) = "\x7b\"a\": \"X\"\x7d" ∧
    ("\x7bexec_a\x7d" : String) ≠ jsonDumps (PyVal.dict [("a", "X")]) ∧
    ¬ ("X".toList <:+: "\x7bexec_a\x7d".toList) := by
  refine ⟨by decide, by decide, by decide, by decide⟩

lemma matchCap_none_of_ne (p : Char) (ps suf : List Char) (c : Char) (cs : List Char)
    (h : p ≠ c) : matchCap (p :: ps) suf (c :: cs) = none := by
  simp [matchCap, dropPfx, h]

lemma no_input_match_in_artifact_elem (k : List Char) (hb : '\x7b' ∉ k) :
    ∀ n : Nat, matchCap inputParamPat inputParamClose
      ((outputArtifactPat ++ (k ++ outputArtifactClose)).drop n) = none := by
  intro n
  by_cases h23 : n < 23
  · interval_cases n <;> rfl
  · push_neg at h23
    obtain ⟨m, rfl⟩ : ∃ m, n = 23 + m := ⟨n - 23, by omega⟩
    rw [show (23 : Nat) = outputArtifactPat.length from rfl, List.drop_append]
    rcases hlt : (k ++ outputArtifactClose).drop m with _ | ⟨c, cs⟩
    · exact matchCap_nil _ _
    · have hc : c ∈ k ++ outputArtifactClose := by
        have hsub : (c :: cs) <:+ (k ++ outputArtifactClose) :=
          hlt ▸ List.drop_suffix m (k ++ outputArtifactClose)
        exact hsub.subset (by simp)
      have hcne : c ≠ '\x7b' := by
        rcases List.mem_append.mp hc with hk | hcl
        · exact fun hh => hb (hh ▸ hk)
        · fin_cases hcl <;> decide
      exact matchCap_none_of_ne _ _ _ _ _ (fun hh => hcne hh.symm)

lemma no_whole_match_in_sentinel :
    ∀ n : Nat, dropPfx wholeInputPat (taxonomySentinel.drop n) = none := by
  intro n
  by_cases h : n < 15
  · interval_cases n <;> rfl
  · rw [List.drop_eq_nil_of_le]
    · rfl
    · have h15 : taxonomySentinel.length = 15 := rfl
      omega

lemma matchCap_art_exact (k : List Char) (hk : k ≠ []) (hq : '\x27' ∉ k) :
    matchCap outputArtifactPat outputArtifactClose
      (outputArtifactPat ++ (k ++ outputArtifactClose)) = some (k, []) := by
  unfold matchCap
  rw [dropPfx_append]
  have hclose : outputArtifactClose =
      '\x27' :: [']', '.', 'p', 'a', 't', 'h', '\x7d', '\x7d'] := rfl
  have htw : (k ++ outputArtifactClose).takeWhile (fun c => c ≠ '\x27') = k := by
    rw [hclose]
    exact takeWhile_append_of _ k _ _
      (fun c hc => decide_eq_true (fun hcq => hq (hcq ▸ hc))) (by decide)
  have hke : k.isEmpty = false := by
    cases k with
    | nil => exact absurd rfl hk
    | cons a l => rfl
  simp only [htw, hke, Bool.false_eq_true, if_false, List.drop_left]
  have hd : dropPfx outputArtifactClose outputArtifactClose = some [] := by
    have := dropPfx_append outputArtifactClose []
    rwa [List.append_nil] at this
  rw [hd]

lemma subCap_art_exact (k : List Char) (hk : k ≠ []) (hq : '\x27' ∉ k) :
    subCap outputArtifactPat outputArtifactClose (fun _ => taxonomySentinel)
      (outputArtifactPat ++ (k ++ outputArtifactClose)) = taxonomySentinel := by
  have hm := matchCap_art_exact k hk hq
  have hcons : outputArtifactPat ++ (k ++ outputArtifactClose) =
      '\x7b' :: (outputArtifactPat.tail ++ (k ++ outputArtifactClose)) := rfl
  rw [hcons] at hm ⊢
  unfold subCap
  simp only [List.length_cons, subCapF, hm]
  simp [subCapF]

/-- C4 (amended): an args element that is exactly an output-artifact-path
placeholder with key `k` (nonempty, quote- and open-brace-free) is rewritten
to the single fixed sentinel `\x7bTAXONOMY_PATH\x7d`, whatever `k`, the
executor name and the binding value are: the placeholder is never left in
place or dropped, but every key collapses to this one sentinel rather than
to a sentinel keyed by its own name. -/
theorem c4_artifact_placeholder_fixed_sentinel (k : List Char) (executor_name : String)
    (param : PyVal) (hk : k ≠ []) (hq : '\x27' ∉ k) (hb : '\x7b' ∉ k) :
    remove_template_markers
      [String.mk (outputArtifactPat ++ (k ++ outputArtifactClose))]
      executor_name param = ["\x7bTAXONOMY_PATH\x7d"] := by
  show [String.mk (pyReplace wholeInputPat (jsonDumps param).toList
        (subCap outputArtifactPat outputArtifactClose (fun _ => taxonomySentinel)
          (subCap inputParamPat inputParamClose
            (fun key => '\x7b' :: (executor_name.toList ++ '_' :: (key ++ ['\x7d'])))
            (outputArtifactPat ++ (k ++ outputArtifactClose)))))] =
      ["\x7bTAXONOMY_PATH\x7d"]
  rw [subCap_no_match _ _ _ _ (no_input_match_in_artifact_elem k hb),
    subCap_art_exact k hk hq,
    pyReplace_no_match wholeInputPat (jsonDumps param).toList taxonomySentinel
      rfl no_whole_match_in_sentinel]
  rfl

/-- Witness for the amended C4 at key `data`. -/
theorem c4_artifact_placeholder_fixed_sentinel_witness :
    ("data".toList ≠ [] ∧ '\x27' ∉ "data".toList ∧ '\x7b' ∉ "data".toList) ∧
    remove_template_markers
      [String.mk (outputArtifactPat ++ ("data".toList ++ outputArtifactClose))]
      "exec" (PyVal.dict []) = ["\x7bTAXONOMY_PATH\x7d"] :=
  ⟨by decide, c4_artifact_placeholder_fixed_sentinel "data".toList "exec"
    (PyVal.dict []) (by decide) (by decide) (by decide)⟩

/-- C4 counterexample: the distinct keys `data` and `taxonomy` both resolve
to the identical fixed sentinel, and the sentinel produced for `data` does
not mention `data` — the sentinel is not keyed by the artifact key. -/
theorem c4_counterexample :
    remove_template_markers
      ["\x7b\x7b$.outputs.artifacts[\x27data\x27].path\x7d\x7d"]
      "exec" (PyVal.dict []) = ["\x7bTAXONOMY_PATH\x7d"] ∧
    remove_template_markers
      ["\x7b\x7b$.outputs.artifacts[\x27taxonomy\x27].path\x7d\x7d"]
      "exec" (PyVal.dict []) = ["\x7bTAXONOMY_PATH\x7d"] ∧
    ("data" : String) ≠ "taxonomy" ∧
    ¬ ("data".toList <:+: "\x7bTAXONOMY_PATH\x7d".toList) := by
  refine ⟨by decide, by decide, by decide, by decide⟩

/-- C3 (amended): when a placeholder prefix is recognized somewhere in an
argument string but no occurrence of any of the three patterns parses
completely, resolution does not fail: the element is returned unchanged,
with the partially-matched pattern left in place. -/
theorem c3_malformed_placeholder_left_in_place (e executor_name : String) (param : PyVal)
    (_hrec : ∃ n < e.toList.length,
      (dropPfx inputParamPat (e.toList.drop n)).isSome = true ∨
      (dropPfx outputArtifactPat (e.toList.drop n)).isSome = true)
    (h1 : ∀ n < e.toList.length,
      matchCap inputParamPat inputParamClose (e.toList.drop n) = none)
    (h2 : ∀ n < e.toList.length,
      matchCap outputArtifactPat outputArtifactClose (e.toList.drop n) = none)
    (h3 : ∀ n < e.toList.length, dropPfx wholeInputPat (e.toList.drop n) = none) :
    remove_template_markers [e] executor_name param = [e] := by
  have hfull : ∀ (pre suf : List Char),
      (∀ n < e.toList.length, matchCap pre suf (e.toList.drop n) = none) →
      ∀ n : Nat, matchCap pre suf (e.toList.drop n) = none := by
    intro pre suf h n
    by_cases hn : n < e.toList.length
    · exact h n hn
    · rw [List.drop_eq_nil_of_le (le_of_not_lt hn)]
      exact matchCap_nil pre suf
  have h3' : ∀ n : Nat, dropPfx wholeInputPat (e.toList.drop n) = none := by
    intro n
    by_cases hn : n < e.toList.length
    · exact h3 n hn
    · rw [List.drop_eq_nil_of_le (le_of_not_lt hn)]
      rfl
  show [String.mk (pyReplace wholeInputPat (jsonDumps param).toList
        (subCap outputArtifactPat outputArtifactClose (fun _ => taxonomySentinel)
          (subCap inputParamPat inputParamClose
            (fun key => '\x7b' :: (executor_name.toList ++ '_' :: (key ++ ['\x7d'])))
            e.toList)))] = [e]
  rw [subCap_no_match _ _ _ _ (hfull _ _ h1), subCap_no_match _ _ _ _ (hfull _ _ h2),
    pyReplace_no_match wholeInputPat (jsonDumps param).toList e.toList rfl h3']
  rfl

/-- Witness for the amended C3: the recognized input-parameter prefix with an
empty (unparseable) key. -/
theorem c3_malformed_placeholder_left_in_place_witness :
    (∃ n < ("\x7b\x7b$.inputs.parameters[\x27\x27]\x7d\x7d" : String).toList.length,
      (dropPfx inputParamPat
        (("\x7b\x7b$.inputs.parameters[\x27\x27]\x7d\x7d" : String).toList.drop n)).isSome
        = true ∨
      (dropPfx outputArtifactPat
        (("\x7b\x7b$.inputs.parameters[\x27\x27]\x7d\x7d" : String).toList.drop n)).isSome
        = true) ∧
    remove_template_markers ["\x7b\x7b$.inputs.parameters[\x27\x27]\x7d\x7d"]
      "exec" (PyVal.dict []) = ["\x7b\x7b$.inputs.parameters[\x27\x27]\x7d\x7d"] :=
  ⟨by decide, c3_malformed_placeholder_left_in_place _ "exec" (PyVal.dict [])
    (by decide) (by decide) (by decide) (by decide)⟩

/-- C3 counterexample: on the recognized-but-unparseable element
`\x7b\x7b$.inputs.parameters[\x27\x27]\x7d\x7d` (empty key) resolution does
not fail with any error — `remove_template_markers` is total — and returns
the partially-matched pattern verbatim in the output. -/
theorem c3_counterexample :
    remove_template_markers ["\x7b\x7b$.inputs.parameters[\x27\x27]\x7d\x7d"]
      "exec" (PyVal.dict []) = ["\x7b\x7b$.inputs.parameters[\x27\x27]\x7d\x7d"] := by
  decide

/-- C10: the command cleanup of a non-empty list returns exactly the last
element — `.path` (not after `os`) stripped, the replacement table applied,
surrounding whitespace removed — discarding every earlier element, and on
the empty list it returns no value (Python's `rendered_code[-1]` raises
`IndexError`). -/
theorem c10_cleanup_keeps_only_last (rendered_code : List String) :
    (∀ h : rendered_code ≠ [],
      change_dsl_function_to_normal_function rendered_code =
        some (pyStrip (applyReplacements (remove_path_not_os_path
          (rendered_code.getLast h))))) ∧
    change_dsl_function_to_normal_function [] = none := by
  constructor
  · intro h
    show ((replacements.foldl (fun acc p => acc.map (pyReplaceStr p.1 p.2))
        (rendered_code.map remove_path_not_os_path)).getLast?).map pyStrip =
      some (pyStrip (applyReplacements (remove_path_not_os_path
        (rendered_code.getLast h))))
    rw [foldl_map_replace, List.map_map, List.getLast?_map,
      List.getLast?_eq_getLast _ h]
    simp only [Option.map_some', Function.comp_apply, applyReplacements]
  · rfl

/-- Witness for C10 on a two-element command list. -/
theorem c10_cleanup_keeps_only_last_witness :
    change_dsl_function_to_normal_function ["first line", "  x = y.path "] =
      some (pyStrip (applyReplacements (remove_path_not_os_path "  x = y.path "))) :=
  (c10_cleanup_keeps_only_last ["first line", "  x = y.path "]).1 (by decide)

lemma processExecutor_found (docs : List Document) (n0 : String) (p0 : PyVal)
    (spec : ContainerSpec) (seg : Option (List (String × DetailVal)))
    (hloc : get_executor_details docs n0 = Except.ok (some spec))
    (hp : processExecutor docs n0 p0 = Except.ok seg) :
    ∃ cmd, change_dsl_function_to_normal_function spec.command = some cmd ∧
      seg = some
        [(camelize n0 ++ "_image", DetailVal.s spec.image),
         (camelize n0 ++ "_command", DetailVal.s cmd),
         (camelize n0 ++ "_args",
          if n0 = "exec-git-clone-op" then
            DetailVal.lst (remove_template_markers spec.args (camelize n0) p0)
          else DetailVal.py p0)] := by
  simp only [processExecutor, hloc] at hp
  cases hc : change_dsl_function_to_normal_function spec.command with
  | none => rw [hc] at hp; exact Except.noConfusion hp
  | some cmd =>
    rw [hc] at hp
    refine ⟨cmd, rfl, ?_⟩
    injection hp with hv
    exact hv.symm

lemma processExecutor_keys (docs : List Document) (n0 : String) (p0 : PyVal)
    (entries : List (String × DetailVal))
    (hp : processExecutor docs n0 p0 = Except.ok (some entries)) :
    entries.map Prod.fst =
      [camelize n0 ++ "_image", camelize n0 ++ "_command", camelize n0 ++ "_args"] := by
  cases hloc : get_executor_details docs n0 with
  | error e =>
    simp only [processExecutor, hloc] at hp
    exact Except.noConfusion hp
  | ok od =>
    cases od with
    | none =>
      simp only [processExecutor, hloc] at hp
      injection hp with hv
      exact Option.noConfusion hv
    | some ed =>
      obtain ⟨cmd, _, hseg⟩ := processExecutor_found docs n0 p0 ed (some entries) hloc hp
      injection hseg with hv
      rw [hv]
      rfl

lemma lookupFirst_append_of_ne (entries tail : List (String × DetailVal)) (key : String)
    (h : ∀ p ∈ entries, p.1 ≠ key) :
    lookupFirst (entries ++ tail) key = lookupFirst tail key := by
  induction entries with
  | nil => rfl
  | cons e es ih =>
    have he : e.1 ≠ key := h e (by simp)
    obtain ⟨k, v⟩ := e
    simp only [List.cons_append, lookupFirst, if_neg he]
    exact ih fun p hp => h p (by simp [hp])

lemma gen_standalone_details_lookup (docs : List Document)
    (name : String) (param : PyVal) (spec : ContainerSpec) :
    ∀ (tbl : List (String × PyVal)) (details : List (String × DetailVal)),
      gen_standalone_details docs tbl = Except.ok details →
      (name, param) ∈ tbl →
      (∀ p ∈ tbl, p.1 ≠ name →
        camelize p.1 ++ "_image" ≠ camelize name ++ "_args" ∧
        camelize p.1 ++ "_command" ≠ camelize name ++ "_args" ∧
        camelize p.1 ++ "_args" ≠ camelize name ++ "_args") →
      (∀ p ∈ tbl, p.1 = name → p.2 = param) →
      get_executor_details docs name = Except.ok (some spec) →
      lookupFirst details (camelize name ++ "_args") =
        some (if name = "exec-git-clone-op" then
          DetailVal.lst (remove_template_markers spec.args (camelize name) param)
        else DetailVal.py param) := by
  intro tbl
  induction tbl with
  | nil =>
    intro details _ hmem _ _ _
    simp at hmem
  | cons hd rest ih =>
    obtain ⟨n0, p0⟩ := hd
    intro details hb hmem hkeys huniq hloc
    cases hp : processExecutor docs n0 p0 with
    | error e =>
      simp only [gen_standalone_details, hp] at hb
      exact Except.noConfusion hb
    | ok seg =>
      cases hr : gen_standalone_details docs rest with
      | error e =>
        simp only [gen_standalone_details, hp, hr] at hb
        exact Except.noConfusion hb
      | ok tail =>
        simp only [gen_standalone_details, hp, hr] at hb
        injection hb with hb
        by_cases hn : n0 = name
        · subst hn
          have hp0 : p0 = param := huniq (n0, p0) (by simp) rfl
          subst hp0
          obtain ⟨cmd, _, hseg⟩ := processExecutor_found docs n0 p0 spec seg hloc hp
          subst hseg
          rw [← hb]
          have k1 : camelize n0 ++ "_image" ≠ camelize n0 ++ "_args" :=
            string_append_right_ne _ _ _ (by decide)
          have k2 : camelize n0 ++ "_command" ≠ camelize n0 ++ "_args" :=
            string_append_right_ne _ _ _ (by decide)
          simp [Option.getD_some, lookupFirst, if_neg k1, if_neg k2]
        · have hmem' : (name, param) ∈ rest := by
            rcases List.mem_cons.mp hmem with heq | hm
            · exact absurd (congrArg Prod.fst heq).symm hn
            · exact hm
          have ihres := ih tail hr hmem'
            (fun p hpm hpne => hkeys p (by simp [hpm]) hpne)
            (fun p hpm hpe => huniq p (by simp [hpm]) hpe) hloc
          cases seg with
          | none =>
            rw [← hb]
            simpa using ihres
          | some entries =>
            have hkey := hkeys (n0, p0) (by simp) hn
            have hkeysmap := processExecutor_keys docs n0 p0 entries hp
            have hne : ∀ q ∈ entries, q.1 ≠ camelize name ++ "_args" := by
              intro q hq
              have hqm : q.1 ∈ entries.map Prod.fst := List.mem_map_of_mem _ hq
              rw [hkeysmap] at hqm
              simp only [List.mem_cons, List.not_mem_nil, or_false] at hqm
              rcases hqm with h | h | h
              · rw [h]; exact hkey.1
              · rw [h]; exact hkey.2.1
              · rw [h]; exact hkey.2.2
            rw [← hb, Option.getD_some, lookupFirst_append_of_ne _ _ _ hne]
            exact ihres

set_option maxRecDepth 100000

/-- C9: in the driver's detail-building loop, for every executor of the
`executors` table that the locator finds, the value bound to the
`<name>_args` slot is the raw caller-supplied table value whenever the
executor is not `exec-git-clone-op` — whatever args the manifest holds, no
placeholder resolution touches them — and is the placeholder-resolved
located args exactly for `exec-git-clone-op`. -/
theorem c9_driver_args_passthrough (docs : List Document) (name : String) (param : PyVal)
    (spec : ContainerSpec) (details : List (String × DetailVal))
    (hmem : (name, param) ∈ executors)
    (hloc : get_executor_details docs name = Except.ok (some spec))
    (hb : gen_standalone_details docs executors = Except.ok details) :
    lookupFirst details (camelize name ++ "_args") =
      some (if name = "exec-git-clone-op" then
        DetailVal.lst (remove_template_markers spec.args (camelize name) param)
      else DetailVal.py param) := by
  have hmem' := hmem
  simp only [executors, List.mem_cons, List.not_mem_nil, or_false, Prod.mk.injEq] at hmem'
  rcases hmem' with ⟨rfl, rfl⟩ | ⟨rfl, rfl⟩ | ⟨rfl, rfl⟩ | ⟨rfl, rfl⟩ | ⟨rfl, rfl⟩ | ⟨rfl, rfl⟩ <;>
    exact gen_standalone_details_lookup docs _ _ spec executors details hb hmem
      (by decide) (by decide) hloc

/-- Witness for C9: a manifest holding only `exec-huggingface-importer-op`;
its `_args` slot receives the table's call-string unchanged. -/
theorem c9_driver_args_passthrough_witness :
    lookupFirst
      [("exec_huggingface_importer_op_image", DetailVal.s "img"),
       ("exec_huggingface_importer_op_command", DetailVal.s "echo"),
       ("exec_huggingface_importer_op_args", DetailVal.py (PyVal.str
         "huggingface_importer_op(repo_name=\"\x7bREPO_GRANITE_7B_IMAGE\x7d\", model_path=\"\x7bDATA_PVC_MODEL_PATH\x7d\")"))]
      ("exec_huggingface_importer_op" ++ "_args") =
      some (DetailVal.py (PyVal.str
        "huggingface_importer_op(repo_name=\"\x7bREPO_GRANITE_7B_IMAGE\x7d\", model_path=\"\x7bDATA_PVC_MODEL_PATH\x7d\")")) :=
  c9_driver_args_passthrough
    [Document.mk (some [("g", [("exec-huggingface-importer-op",
      ExecutorValue.mk (some (PyContainer.mk (some ["echo"]) (some []) (some "img"))))])])]
    "exec-huggingface-importer-op"
    (PyVal.str "huggingface_importer_op(repo_name=\"\x7bREPO_GRANITE_7B_IMAGE\x7d\", model_path=\"\x7bDATA_PVC_MODEL_PATH\x7d\")")
    (ContainerSpec.mk ["echo"] [] "img")
    [("exec_huggingface_importer_op_image", DetailVal.s "img"),
     ("exec_huggingface_importer_op_command", DetailVal.s "echo"),
     ("exec_huggingface_importer_op_args", DetailVal.py (PyVal.str
       "huggingface_importer_op(repo_name=\"\x7bREPO_GRANITE_7B_IMAGE\x7d\", model_path=\"\x7bDATA_PVC_MODEL_PATH\x7d\")"))]
    (by decide) rfl rfl
